import Mathlib

/-
Verification of the chess_frontend client core: a shallow embedding of
(a) the hex coordinate engine of BoardUI.ts, (b) the WebSocketManager
connection manager of websocket.ts, (c) the DragDropManager interaction
state machine of dragDrop (utils), and (d) the GameState state mirror,
together with theorems settling the specified properties.

Machine numbers of the source are JavaScript doubles; the coordinate
conversions gridToHex and hexToGrid only ever manipulate integers
(boardRadius is the integer attribute defaulting to 12), so they are
embedded over Int.  The world-position geometry of hexToWorld uses
Math.sqrt, Math.cos and Math.sin; since the claims about it are purely
algebraic (rotation accumulation, identity at zero), it is embedded over
the rationals with the square root and the trigonometric functions kept
as abstract function parameters of the configuration.
-/

/-! ## Hex Coordinate Engine (src/components/BoardUI.ts) -/

/-- Cube coordinates of a hex cell, as in the HexCoord interface of
BoardUI.ts.  The invariant q + r + s = 0 is a property proved about the
producing functions, not baked into the type. -/
structure HexCoord where
  q : Int
  r : Int
  s : Int
deriving DecidableEq, Repr

/-- Embedding of BoardUI.gridToHex (BoardUI.ts lines 601-624).
Computes q = x - floor(boardRadius), r = y - floor(boardRadius / 2),
s = -q - r and returns the cell when max(|q|, |r|, |s|) is at most
boardRadius, and null (none) otherwise.  boardRadius is the integer
component attribute (default 12), so the two floors are the identity
and Nat division by 2 respectively. -/
def gridToHex (boardRadius : Nat) (x y : Int) : Option HexCoord :=
  let q : Int := x - boardRadius
  let r : Int := y - (boardRadius / 2 : Nat)
  let s : Int := -q - r
  if max q.natAbs (max r.natAbs s.natAbs) ≤ boardRadius then
    some { q := q, r := r, s := s }
  else
    none

/-- Embedding of BoardUI.hexToGrid (BoardUI.ts lines 633-644).
The source body unconditionally returns [q + floor(boardRadius),
r + floor(boardRadius / 2)] (its declared null case is unreachable),
so it is embedded as a total function.  The s argument is accepted and
ignored exactly as in the source. -/
def hexToGrid (boardRadius : Nat) (q r s : Int) : Int × Int :=
  (q + boardRadius, r + (boardRadius / 2 : Nat))

/-- Configuration of the world-position geometry: the cell size
attribute together with abstract stand-ins for Math.sqrt(3), Math.cos
and Math.sin, over which the algebraic rotation claims hold for every
choice. -/
structure HexGeometry where
  cellSize : ℚ
  sqrt3 : ℚ
  cosF : ℚ → ℚ
  sinF : ℚ → ℚ

/-- Embedding of BoardUI.hexToWorld (BoardUI.ts lines 174-190): the
fixed hex-to-Cartesian layout x = cellSize * (sqrt3 * q + sqrt3/2 * r)
* 0.95, z = cellSize * (3/2 * r) * 0.95, followed by the 2-D rotation
by the accumulated board rotation.  The s coordinate is accepted and
unused exactly as in the source formula. -/
def hexToWorld (g : HexGeometry) (boardRotation : ℚ) (q r s : ℚ) : ℚ × ℚ :=
  let x := g.cellSize * (g.sqrt3 * q + g.sqrt3 / 2 * r) * (95 / 100)
  let z := g.cellSize * (3 / 2 * r) * (95 / 100)
  (x * g.cosF boardRotation - z * g.sinF boardRotation,
   x * g.sinF boardRotation + z * g.cosF boardRotation)

/-- The board-view state touched by BoardUI.rotateBoard: the
accumulated rotation angle, the stored hex coordinates of the cells
(the hexGrid mapping), and the world positions last written to the
cell entities. -/
structure BoardViewState where
  boardRotation : ℚ
  hexGrid : List HexCoord
  cellPositions : List (ℚ × ℚ)

/-- Embedding of BoardUI.rotateBoard (BoardUI.ts lines 491-533): adds
the angle to the accumulated rotation, then recomputes every cell
world position from its stored hex coordinate via hexToWorld.  The
stored coordinates themselves are only read, never written. -/
def rotateBoard (g : HexGeometry) (st : BoardViewState) (angle : ℚ) : BoardViewState :=
  let rot := st.boardRotation + angle
  { boardRotation := rot
    hexGrid := st.hexGrid
    cellPositions := st.hexGrid.map (fun c => hexToWorld g rot (c.q : ℚ) (c.r : ℚ) (c.s : ℚ)) }

/-- Claim C1: for every server grid index (x, y) for which gridToHex
returns a hex cell, hexToGrid applied to that cell returns exactly
(x, y); and conversely, for every cell of the hex disk with
q + r + s = 0, gridToHex applied to hexToGrid of the cell returns the
cell itself.  gridToHex is a pure function, hence deterministic, and
the two maps are two-sided inverses over this subset of indices. -/
theorem gridToHex_hexToGrid_roundtrip (R : Nat) :
    (∀ x y : Int, ∀ c : HexCoord, gridToHex R x y = some c →
      hexToGrid R c.q c.r c.s = (x, y)) ∧
    (∀ c : HexCoord, c.q + c.r + c.s = 0 →
      max c.q.natAbs (max c.r.natAbs c.s.natAbs) ≤ R →
      gridToHex R (hexToGrid R c.q c.r c.s).1 (hexToGrid R c.q c.r c.s).2 = some c) := by
  constructor
  · intro x y c h
    simp only [gridToHex] at h
    split at h
    · obtain rfl := (Option.some.injEq _ _).mp h.symm
      simp only [hexToGrid, Prod.mk.injEq]
      omega
    · exact absurd h (by simp)
  · intro c hsum hdisk
    obtain ⟨cq, cr, cs⟩ := c
    simp only [HexCoord.mk.injEq] at *
    simp only [hexToGrid, gridToHex]
    have h1 : cq + (R : Int) - (R : Int) = cq := by ring
    have h2 : cr + ((R / 2 : Nat) : Int) - ((R / 2 : Nat) : Int) = cr := by ring
    rw [h1, h2]
    have h3 : -cq - cr = cs := by omega
    rw [h3]
    simp only [if_pos hdisk]

/-- Concrete instantiation of the C1 round-trip at radius 12 and grid
index (12, 6), the disk center. -/
theorem gridToHex_hexToGrid_roundtrip_witness :
    hexToGrid 12 0 0 0 = (12, 6) ∧ gridToHex 12 12 6 = some ⟨0, 0, 0⟩ :=
  ⟨(gridToHex_hexToGrid_roundtrip 12).1 12 6 ⟨0, 0, 0⟩ (by decide),
   (gridToHex_hexToGrid_roundtrip 12).2 ⟨0, 0, 0⟩ (by decide) (by decide)⟩

/-- Claim C7: for every grid index whose computed cube coordinates fall
outside the hex disk, gridToHex returns none (a typed invalid result,
not a clamped coordinate), and every cell gridToHex does return
satisfies q + r + s = 0. -/
theorem gridToHex_invalid_outside_disk (R : Nat) (x y : Int) :
    (max (x - R).natAbs
        (max (y - (R / 2 : Nat)).natAbs (-(x - R) - (y - (R / 2 : Nat))).natAbs) > R →
      gridToHex R x y = none) ∧
    (∀ c : HexCoord, gridToHex R x y = some c → c.q + c.r + c.s = 0) := by
  constructor
  · intro hout
    simp only [gridToHex]
    rw [if_neg (by omega)]
  · intro c h
    simp only [gridToHex] at h
    split at h
    · obtain rfl := (Option.some.injEq _ _).mp h.symm
      simp only
      ring
    · exact absurd h (by simp)

/-- Concrete instantiation of C7 at radius 12: index (0, 0) computes
s = 18 outside the disk and gridToHex returns none; index (12, 6) is
inside and its cell sums to zero. -/
theorem gridToHex_invalid_outside_disk_witness :
    gridToHex 12 0 0 = none ∧ (0 : Int) + 0 + 0 = 0 :=
  ⟨(gridToHex_invalid_outside_disk 12 0 0).1 (by decide),
   (gridToHex_invalid_outside_disk 12 12 6).2 ⟨0, 0, 0⟩ (by decide)⟩

/-- Claim C10: rotating by a and then by -a restores the accumulated
rotation exactly, hence every hexToWorld position returns to its
original value (exact equality in the rational model, so certainly
within floating-point tolerance); rotating by 0 leaves every world
position unchanged; and rotateBoard never changes any stored hex
coordinate, only the rotation state and the derived world positions. -/
theorem rotateBoard_inverse_and_identity (g : HexGeometry) (st : BoardViewState)
    (a q r s : ℚ) :
    (rotateBoard g (rotateBoard g st a) (-a)).boardRotation = st.boardRotation ∧
    hexToWorld g (rotateBoard g (rotateBoard g st a) (-a)).boardRotation q r s
      = hexToWorld g st.boardRotation q r s ∧
    hexToWorld g (rotateBoard g st 0).boardRotation q r s
      = hexToWorld g st.boardRotation q r s ∧
    (rotateBoard g st a).hexGrid = st.hexGrid ∧
    (rotateBoard g (rotateBoard g st a) (-a)).cellPositions
      = st.hexGrid.map (fun c => hexToWorld g st.boardRotation (c.q : ℚ) (c.r : ℚ) (c.s : ℚ)) := by
  have hrot : (rotateBoard g (rotateBoard g st a) (-a)).boardRotation = st.boardRotation := by
    simp only [rotateBoard]
    ring
  have hrot0 : (rotateBoard g st 0).boardRotation = st.boardRotation := by
    simp only [rotateBoard]
    ring
  refine ⟨hrot, by rw [hrot], by rw [hrot0], rfl, ?_⟩
  simp only [rotateBoard]
  rw [show st.boardRotation + a + -a = st.boardRotation by ring]

/-! ## Connection Manager (src/websocket.ts) -/

/-- The reconnection-relevant state of WebSocketManager: the
constructor configuration (autoReconnect, maxReconnectAttempts), the
retry counter reconnectAttempts, and whether a socket object currently
exists (this.socket, set to null on close and on disconnect). -/
structure WSState where
  autoReconnect : Bool
  maxReconnectAttempts : Nat
  reconnectAttempts : Nat
  socketExists : Bool
deriving DecidableEq, Repr

/-- Embedding of the onopen handler installed by connect
(websocket.ts lines 47-51): a successful open resets the retry counter
to zero. -/
def handleOpen (s : WSState) : WSState :=
  { s with reconnectAttempts := 0, socketExists := true }

/-- Embedding of the onclose handler installed by connect
(websocket.ts lines 67-76): the socket is cleared, and when
autoReconnect is enabled and the retry counter is below the maximum,
the counter is incremented and a reconnect attempt is scheduled via
setTimeout.  The Bool of the result records whether that setTimeout
call was made by this close event. -/
def handleClose (s : WSState) : WSState × Bool :=
  let s1 := { s with socketExists := false }
  if s1.autoReconnect = true ∧ s1.reconnectAttempts < s1.maxReconnectAttempts then
    ({ s1 with reconnectAttempts := s1.reconnectAttempts + 1 }, true)
  else
    (s1, false)

/-- Embedding of disconnect (websocket.ts lines 92-97): when a socket
exists it is closed and the field nulled.  Closing the underlying
WebSocket fires its close event, on which the installed onclose
handler (handleClose) runs; the handler contains no check that would
distinguish this explicit close from a remote one.  When no socket
exists, disconnect does nothing. -/
def disconnect (s : WSState) : WSState × Bool :=
  if s.socketExists then handleClose { s with socketExists := false } else (s, false)

/-- Iterated unexpected closes: each failed reconnect attempt ends in
another close event handled by handleClose. -/
def iterateClose : Nat → WSState → WSState
  | 0, s => s
  | n + 1, s => iterateClose n (handleClose s).1

/-- Closing never changes the configuration fields. -/
theorem handleClose_config (s : WSState) :
    (handleClose s).1.autoReconnect = s.autoReconnect ∧
    (handleClose s).1.maxReconnectAttempts = s.maxReconnectAttempts := by
  simp only [handleClose]
  split <;> exact ⟨rfl, rfl⟩

/-- Under budget, each close increments the retry counter by one. -/
theorem handleClose_attempts_lt (s : WSState) (hauto : s.autoReconnect = true)
    (hlt : s.reconnectAttempts < s.maxReconnectAttempts) :
    (handleClose s).1.reconnectAttempts = s.reconnectAttempts + 1 ∧
    (handleClose s).2 = true := by
  simp only [handleClose]
  rw [if_pos ⟨hauto, hlt⟩]
  exact ⟨rfl, rfl⟩

/-- The retry counter after n consecutive closes from a state with the
budget to absorb them is the starting counter plus n. -/
theorem iterateClose_attempts (n : Nat) : ∀ s : WSState, s.autoReconnect = true →
    s.reconnectAttempts + n ≤ s.maxReconnectAttempts →
    (iterateClose n s).reconnectAttempts = s.reconnectAttempts + n ∧
    (iterateClose n s).autoReconnect = true ∧
    (iterateClose n s).maxReconnectAttempts = s.maxReconnectAttempts := by
  induction n with
  | zero => intro s hauto _; exact ⟨rfl, hauto, rfl⟩
  | succ n ih =>
    intro s hauto hle
    have hlt : s.reconnectAttempts < s.maxReconnectAttempts := by omega
    have hstep := handleClose_attempts_lt s hauto hlt
    have hcfg := handleClose_config s
    have := ih (handleClose s).1 (by rw [hcfg.1]; exact hauto)
      (by rw [hstep.1, hcfg.2]; omega)
    simp only [iterateClose]
    refine ⟨?_, this.2.1, by rw [this.2.2, hcfg.2]⟩
    rw [this.1, hstep.1]
    omega

/-- Claim C3: reconnection is bounded by the retry budget.  After a
successful open the counter is zero; after n consecutive unexpected
closes with n within the budget the counter equals n, and while the
counter is below the maximum each further close schedules exactly one
reconnect attempt (the manager is reconnecting); once the counter has
reached the maximum, a close schedules no reconnect attempt and the
counter no longer changes (the terminal failed state). -/
theorem reconnect_bounded_by_budget (s : WSState) (n : Nat)
    (hauto : s.autoReconnect = true) :
    (handleOpen s).reconnectAttempts = 0 ∧
    (n ≤ s.maxReconnectAttempts →
      (iterateClose n (handleOpen s)).reconnectAttempts = n) ∧
    (n < s.maxReconnectAttempts →
      (handleClose (iterateClose n (handleOpen s))).2 = true) ∧
    (∀ t : WSState, t.reconnectAttempts = t.maxReconnectAttempts →
      (handleClose t).2 = false ∧
      (handleClose t).1.reconnectAttempts = t.reconnectAttempts) := by
  refine ⟨rfl, ?_, ?_, ?_⟩
  · intro hle
    have := iterateClose_attempts n (handleOpen s) hauto (by simp [handleOpen]; omega)
    simpa [handleOpen] using this.1
  · intro hlt
    have h := iterateClose_attempts n (handleOpen s) hauto (by simp [handleOpen]; omega)
    have hcnt : (iterateClose n (handleOpen s)).reconnectAttempts = n := by
      simpa [handleOpen] using h.1
    have hmax : (iterateClose n (handleOpen s)).maxReconnectAttempts = s.maxReconnectAttempts := by
      simpa [handleOpen] using h.2.2
    exact (handleClose_attempts_lt _ h.2.1 (by omega)).2
  · intro t ht
    simp only [handleClose]
    rw [if_neg (by omega)]
    exact ⟨rfl, rfl⟩

/-- Concrete instantiation of C3 with the default configuration
(autoReconnect true, maxReconnectAttempts 5): two closes after an open
leave the counter at 2 with a reconnect scheduled by the next close,
and a close at the exhausted counter schedules nothing. -/
theorem reconnect_bounded_by_budget_witness :
    (iterateClose 2 (handleOpen ⟨true, 5, 3, true⟩)).reconnectAttempts = 2 ∧
    (handleClose (iterateClose 2 (handleOpen ⟨true, 5, 3, true⟩))).2 = true ∧
    (handleClose ⟨true, 5, 5, false⟩).2 = false :=
  ⟨(reconnect_bounded_by_budget ⟨true, 5, 3, true⟩ 2 rfl).2.1 (by decide),
   (reconnect_bounded_by_budget ⟨true, 5, 3, true⟩ 2 rfl).2.2.1 (by decide),
   ((reconnect_bounded_by_budget ⟨true, 5, 3, true⟩ 2 rfl).2.2.2 ⟨true, 5, 5, false⟩ rfl).1⟩

/-- Claim C4 evaluated at its failing input: with the default
configuration (autoReconnect true, maxReconnectAttempts 5, counter 0)
and an open socket, an explicit disconnect leads to the close event
whose handler schedules a reconnect attempt — the code does not
suppress auto-reconnect on explicit disconnect, contradicting the
claim. -/
theorem disconnect_schedules_reconnect :
    (disconnect ⟨true, 5, 0, true⟩).2 = true ∧
    (disconnect ⟨true, 5, 0, true⟩).1.reconnectAttempts = 1 := by
  decide

/-! ## Subscription registry (src/websocket.ts on, off, onmessage) -/

/-- The eventListeners map of WebSocketManager, modelled as a total
function from message-type tag to the registered callback list, with
the empty list standing for an absent key (Map.get with the
get-or-empty fallback used throughout the source).  Callbacks are
identified by reference in the source, modelled as Nat identities. -/
def Registry : Type := String → List Nat

/-- A registry with no listeners. -/
def emptyRegistry : Registry := fun _ => []

/-- Embedding of WebSocketManager.on (websocket.ts lines 128-136):
appends the callback to the list for the type, creating the list when
absent.  No de-duplication is performed. -/
def wsOn (reg : Registry) (type : String) (cb : Nat) : Registry :=
  fun t => if t = type then reg type ++ [cb] else reg t

/-- Embedding of WebSocketManager.off (websocket.ts lines 143-155):
indexOf finds the first occurrence of the callback and splice removes
exactly that one entry; an absent callback or type leaves the registry
unchanged. -/
def wsOff (reg : Registry) (type : String) (cb : Nat) : Registry :=
  fun t => if t = type then (reg type).erase cb else reg t

/-- Embedding of the onmessage dispatch (websocket.ts lines 53-65): a
well-formed envelope of the given type invokes every callback
registered for that type in registration order; the result is the
invocation sequence. -/
def dispatchMessage (reg : Registry) (type : String) : List Nat :=
  reg type

/-- Claim C8: registering the same callback twice for a type makes it
appear exactly twice in the invocation sequence of every message of
that type (no implicit de-duplication), and each wsOff call removes
exactly one registration of the callback. -/
theorem on_off_registration_counts (reg : Registry) (t : String) (cb : Nat)
    (hfresh : (dispatchMessage reg t).count cb = 0) :
    (dispatchMessage (wsOn (wsOn reg t cb) t cb) t).count cb = 2 ∧
    (dispatchMessage (wsOff (wsOn (wsOn reg t cb) t cb) t cb) t).count cb = 1 ∧
    (∀ reg2 : Registry, (dispatchMessage (wsOff reg2 t cb) t).count cb
        = (dispatchMessage reg2 t).count cb - 1) := by
  have hcount : ∀ reg2 : Registry, (dispatchMessage (wsOff reg2 t cb) t).count cb
      = (dispatchMessage reg2 t).count cb - 1 := by
    intro reg2
    simp only [dispatchMessage, wsOff, if_pos rfl]
    exact List.count_erase_self cb (reg2 t)
  have htwice : (dispatchMessage (wsOn (wsOn reg t cb) t cb) t).count cb = 2 := by
    simp only [dispatchMessage, wsOn, if_pos rfl]
    simp only [dispatchMessage] at hfresh
    simp [List.count_append, hfresh]
  exact ⟨htwice, by rw [hcount, htwice], hcount⟩

/-- Concrete instantiation of C8: callback 7 registered twice for the
MoveChessResult type on an empty registry is invoked twice per
message, and one wsOff leaves one registration. -/
theorem on_off_registration_counts_witness :
    (dispatchMessage (wsOn (wsOn emptyRegistry "MoveChessResult" 7) "MoveChessResult" 7)
        "MoveChessResult").count 7 = 2 ∧
    (dispatchMessage (wsOff (wsOn (wsOn emptyRegistry "MoveChessResult" 7)
        "MoveChessResult" 7) "MoveChessResult" 7) "MoveChessResult").count 7 = 1 :=
  ⟨(on_off_registration_counts emptyRegistry "MoveChessResult" 7 rfl).1,
   (on_off_registration_counts emptyRegistry "MoveChessResult" 7 rfl).2.1⟩

/-! ## Interaction State Machine (src/utils dragDrop, DragDropManager) -/

/-- The piece data carried by a drag session (the fields of the
ChessPiece interface of gameState that the drag logic stores and
passes through untouched). -/
structure ChessPiece where
  id : String
  chess : String
  level : Nat
  position : Option (Int × Int) := none
  benchIndex : Option Nat := none
deriving DecidableEq, Repr

/-- The Position union of dragDrop: a bench slot index or a board
coordinate pair.  Equality is structural. -/
inductive Position where
  | bench (index : Nat)
  | board (x : Int) (y : Int)
deriving DecidableEq, Repr

/-- The protocol shape of a MoveChess endpoint: either a string token
(bench-i or the plain bench sentinel) or a coordinate pair. -/
inductive MoveParam where
  | token (s : String)
  | coords (x : Int) (y : Int)
deriving DecidableEq, Repr

/-- The DragEventData record: the piece snapshot, the source position
and the optional target set at drop time. -/
structure DragEventData where
  chessPiece : ChessPiece
  source : Position
  target : Option Position := none
deriving DecidableEq, Repr

/-- Observable effects of the drag-drop operations: callback
invocations (callbacks identified by Nat as in the registry model) and
the outbound MoveChess intent produced through sendMoveChess. -/
inductive DragEffect where
  | dragStart (cb : Nat) (data : DragEventData)
  | dragMove (cb : Nat) (data : DragEventData) (x y : Int)
  | dragEnd (cb : Nat) (data : DragEventData) (success : Bool)
  | drop (cb : Nat) (data : DragEventData) (success : Bool)
  | sentMoveChess (playerId : String) (fromP : MoveParam) (toP : MoveParam)
deriving DecidableEq, Repr

/-- The DragDropManager instance state: the player id, the single
in-flight session, the four callback lists, and the configured
extents. -/
structure DragDropManager where
  playerId : String
  currentDrag : Option DragEventData := none
  dragStartCallbacks : List Nat := []
  dragMoveCallbacks : List Nat := []
  dragEndCallbacks : List Nat := []
  dropCallbacks : List Nat := []
  boardWidth : Nat := 8
  boardHeight : Nat := 3
  benchSize : Nat := 9
deriving DecidableEq, Repr

namespace DragDropManager

/-- Embedding of startDrag (dragDrop lines 290-297): unconditionally
replaces currentDrag with a fresh session and notifies the
start-subscribers; no check of an existing session is made. -/
def startDrag (m : DragDropManager) (chessPiece : ChessPiece) (source : Position) :
    DragDropManager × List DragEffect :=
  let d : DragEventData := { chessPiece := chessPiece, source := source }
  ({ m with currentDrag := some d },
   m.dragStartCallbacks.map (fun cb => .dragStart cb d))

/-- Embedding of moveDrag (dragDrop lines 304-310): a no-op without a
session, otherwise notifies the move-subscribers with the pointer
coordinates. -/
def moveDrag (m : DragDropManager) (x y : Int) :
    DragDropManager × List DragEffect :=
  match m.currentDrag with
  | none => (m, [])
  | some d => (m, m.dragMoveCallbacks.map (fun cb => .dragMove cb d x y))

/-- Embedding of cancelDrag (dragDrop lines 332-341): destroys the
session and notifies the end-subscribers with success = false. -/
def cancelDrag (m : DragDropManager) : DragDropManager × List DragEffect :=
  match m.currentDrag with
  | none => (m, [])
  | some d =>
    ({ m with currentDrag := none },
     m.dragEndCallbacks.map (fun cb => .dragEnd cb d false))

/-- Embedding of the private drop method (dragDrop lines 347-385):
translates the source to bench-i or a coordinate pair and the target
to the bench sentinel or a coordinate pair, performs the single
sendMoveChess call (recorded as the sentMoveChess effect; sendOk is
whether the awaited send resolved), notifies end- and drop-subscribers
with that outcome, and destroys the session. -/
def drop (m : DragDropManager) (dragData : DragEventData) (sendOk : Bool) :
    DragDropManager × List DragEffect :=
  match dragData.target with
  | none => cancelDrag m
  | some target =>
    let fromParam : MoveParam :=
      match dragData.source with
      | .bench i => .token ("bench-" ++ toString i)
      | .board x y => .coords x y
    let toParam : MoveParam :=
      match target with
      | .bench _ => .token "bench"
      | .board x y => .coords x y
    ({ m with currentDrag := none },
     DragEffect.sentMoveChess m.playerId fromParam toParam
       :: (m.dragEndCallbacks.map (fun cb => .dragEnd cb dragData sendOk)
           ++ m.dropCallbacks.map (fun cb => .drop cb dragData sendOk)))

/-- Embedding of endDrag (dragDrop lines 316-327): a no-op without a
session; with a target the session receives the target and is dropped,
without one it is cancelled. -/
def endDrag (m : DragDropManager) (target : Option Position) (sendOk : Bool) :
    DragDropManager × List DragEffect :=
  match m.currentDrag with
  | none => (m, [])
  | some d =>
    match target with
    | some t => drop m { d with target := some t } sendOk
    | none => cancelDrag m

end DragDropManager

/-- The outbound MoveChess intents among a list of drag effects. -/
def sentIntents (es : List DragEffect) : List (String × MoveParam × MoveParam) :=
  es.filterMap fun e =>
    match e with
    | .sentMoveChess p f t => some (p, f, t)
    | _ => none

/-- Whether a drag effect is an end-subscriber notification. -/
def isDragEnd (e : DragEffect) : Bool :=
  match e with
  | .dragEnd _ _ _ => true
  | _ => false

/-- Mapping any callback-notification constructor over a list yields no
outbound intent. -/
theorem sentIntents_map_dragStart (l : List Nat) (d : DragEventData) :
    sentIntents (l.map (fun cb => .dragStart cb d)) = [] := by
  induction l with
  | nil => rfl
  | cons a l ih => simpa [sentIntents, List.filterMap] using ih

/-- Move notifications likewise carry no outbound intent. -/
theorem sentIntents_map_dragMove (l : List Nat) (d : DragEventData) (x y : Int) :
    sentIntents (l.map (fun cb => .dragMove cb d x y)) = [] := by
  induction l with
  | nil => rfl
  | cons a l ih => simpa [sentIntents, List.filterMap] using ih

/-- End notifications likewise carry no outbound intent. -/
theorem sentIntents_map_dragEnd (l : List Nat) (d : DragEventData) (b : Bool) :
    sentIntents (l.map (fun cb => .dragEnd cb d b)) = [] := by
  induction l with
  | nil => rfl
  | cons a l ih => simpa [sentIntents, List.filterMap] using ih

/-- Drop notifications likewise carry no outbound intent. -/
theorem sentIntents_map_drop (l : List Nat) (d : DragEventData) (b : Bool) :
    sentIntents (l.map (fun cb => .drop cb d b)) = [] := by
  induction l with
  | nil => rfl
  | cons a l ih => simpa [sentIntents, List.filterMap] using ih

/-- sentIntents distributes over concatenation. -/
theorem sentIntents_append (l1 l2 : List DragEffect) :
    sentIntents (l1 ++ l2) = sentIntents l1 ++ sentIntents l2 :=
  List.filterMap_append l1 l2 _

/-- A MoveChess effect at the head contributes exactly one intent. -/
theorem sentIntents_cons_sent (p : String) (f t : MoveParam) (l : List DragEffect) :
    sentIntents (.sentMoveChess p f t :: l) = (p, f, t) :: sentIntents l :=
  rfl

/-- Claim C2: finalizing a drag session.  With no target after
startDrag at bench slot 2 and moveDrag (10, 10), no MoveChess intent
is emitted and the end-subscribers are notified with success = false;
with target board (3, 1) after startDrag at bench slot 0, exactly one
MoveChess intent with from bench-0 and to [3, 1] is emitted; in both
cases the session is destroyed (currentDrag becomes none). -/
theorem endDrag_cancel_and_single_intent (m : DragDropManager) (p : ChessPiece) :
    (sentIntents ((m.startDrag p (.bench 2)).2
        ++ ((m.startDrag p (.bench 2)).1.moveDrag 10 10).2
        ++ (((m.startDrag p (.bench 2)).1.moveDrag 10 10).1.endDrag none true).2) = [] ∧
      (((m.startDrag p (.bench 2)).1.moveDrag 10 10).1.endDrag none true).2
        = m.dragEndCallbacks.map
            (fun cb => .dragEnd cb { chessPiece := p, source := .bench 2 } false) ∧
      (((m.startDrag p (.bench 2)).1.moveDrag 10 10).1.endDrag none true).1.currentDrag
        = none) ∧
    (∀ sendOk : Bool,
      sentIntents ((m.startDrag p (.bench 0)).2
          ++ ((m.startDrag p (.bench 0)).1.endDrag (some (.board 3 1)) sendOk).2)
        = [(m.playerId, MoveParam.token "bench-0", MoveParam.coords 3 1)] ∧
      ((m.startDrag p (.bench 0)).1.endDrag (some (.board 3 1)) sendOk).1.currentDrag
        = none) := by
  constructor
  · refine ⟨?_, rfl, rfl⟩
    simp only [DragDropManager.startDrag, DragDropManager.moveDrag,
      DragDropManager.endDrag, DragDropManager.cancelDrag, sentIntents_append,
      sentIntents_map_dragStart, sentIntents_map_dragMove, sentIntents_map_dragEnd,
      List.append_nil]
  · intro sendOk
    constructor
    · simp only [DragDropManager.startDrag, DragDropManager.endDrag,
        DragDropManager.drop, sentIntents_append, sentIntents_map_dragStart,
        List.nil_append]
      rw [sentIntents_cons_sent, sentIntents_append, sentIntents_map_dragEnd,
        sentIntents_map_drop]
      rfl
    · rfl

/-- A sample piece as found on the simulated bench. -/
def piece1 : ChessPiece := { id := "b1", chess := "Knight", level := 1 }

/-- A second sample piece. -/
def piece2 : ChessPiece := { id := "b2", chess := "Mage", level := 1 }

/-- A manager with an active drag session on piece1 from bench slot 0,
one start-subscriber (0) and one end-subscriber (1). -/
def mgrC5 : DragDropManager :=
  { playerId := "p1"
    currentDrag := some { chessPiece := piece1, source := .bench 0 }
    dragStartCallbacks := [0]
    dragEndCallbacks := [1] }

/-- Claim C5 refuted at a concrete input: on a manager with an active
session and a registered end-subscriber, a second startDrag neither
leaves the manager unchanged (a rejection) nor emits any end
notification for the discarded prior session — both disjuncts of the
claim fail, the prior session is silently discarded. -/
theorem startDrag_while_active_claim_false :
    ¬ (((mgrC5.startDrag piece2 (.bench 1)).1 = mgrC5) ∨
       (∃ e ∈ (mgrC5.startDrag piece2 (.bench 1)).2, isDragEnd e = true)) := by
  decide

/-- Claim C5 amended: a startDrag while a session is active silently
replaces the prior session — the new session becomes current, only the
start-subscribers are notified (of the new session), no end
notification and no outbound intent is produced for the discarded
session. -/
theorem startDrag_replaces_active_session (m : DragDropManager) (d : DragEventData)
    (p : ChessPiece) (src : Position) (h : m.currentDrag = some d) :
    (m.startDrag p src).1.currentDrag = some { chessPiece := p, source := src } ∧
    (m.startDrag p src).2 = m.dragStartCallbacks.map
      (fun cb => .dragStart cb { chessPiece := p, source := src }) ∧
    (∀ e ∈ (m.startDrag p src).2, isDragEnd e = false) ∧
    sentIntents (m.startDrag p src).2 = [] := by
  refine ⟨rfl, rfl, ?_, sentIntents_map_dragStart _ _⟩
  intro e he
  simp only [DragDropManager.startDrag, List.mem_map] at he
  obtain ⟨cb, _, rfl⟩ := he
  rfl

/-- Concrete instantiation of the amended C5 on mgrC5. -/
theorem startDrag_replaces_active_session_witness :
    (mgrC5.startDrag piece2 (.bench 1)).1.currentDrag
      = some { chessPiece := piece2, source := .bench 1 } ∧
    sentIntents (mgrC5.startDrag piece2 (.bench 1)).2 = [] :=
  ⟨(startDrag_replaces_active_session mgrC5
      { chessPiece := piece1, source := .bench 0 } piece2 (.bench 1) rfl).1,
   (startDrag_replaces_active_session mgrC5
      { chessPiece := piece1, source := .bench 0 } piece2 (.bench 1) rfl).2.2.2⟩

/-! ## State Mirror (gameState: GameState, updateState, ActionButtonPanel) -/

/-- A shop slot as in the ShopItem interface. -/
structure ShopItem where
  chess : String
  level : Nat
deriving DecidableEq, Repr

/-- An active synergy as in the Synergy interface. -/
structure Synergy where
  name : String
  count : Nat
  bonusLevel : Nat
deriving DecidableEq, Repr

/-- Experience as in the XP interface. -/
structure XP where
  current : Int
  required : Int
deriving DecidableEq, Repr

/-- The GameState interface: the single process-wide state mirror. -/
structure GameState where
  gameId : String
  playerId : String
  round : Int
  money : Int
  level : Int
  xp : XP
  shop : List ShopItem
  bench : List ChessPiece
  board : List ChessPiece
  synergies : List Synergy
  shopLocked : Bool
  isInBattle : Bool
deriving DecidableEq, Repr

/-- The initialState constant of gameState. -/
def initialState : GameState :=
  { gameId := ""
    playerId := ""
    round := 1
    money := 10
    level := 1
    xp := { current := 0, required := 2 }
    shop := []
    bench := []
    board := []
    synergies := []
    shopLocked := false
    isInBattle := false }

/-- A Partial GameState patch: every field optional, as accepted by
updateState. -/
structure StatePatch where
  gameId : Option String := none
  playerId : Option String := none
  round : Option Int := none
  money : Option Int := none
  level : Option Int := none
  xp : Option XP := none
  shop : Option (List ShopItem) := none
  bench : Option (List ChessPiece) := none
  board : Option (List ChessPiece) := none
  synergies : Option (List Synergy) := none
  shopLocked : Option Bool := none
  isInBattle : Option Bool := none
deriving DecidableEq, Repr

/-- The Object.assign merge of a patch into the snapshot: every
present field replaces the old value. -/
def applyPatch (st : GameState) (p : StatePatch) : GameState :=
  { gameId := p.gameId.getD st.gameId
    playerId := p.playerId.getD st.playerId
    round := p.round.getD st.round
    money := p.money.getD st.money
    level := p.level.getD st.level
    xp := p.xp.getD st.xp
    shop := p.shop.getD st.shop
    bench := p.bench.getD st.bench
    board := p.board.getD st.board
    synergies := p.synergies.getD st.synergies
    shopLocked := p.shopLocked.getD st.shopLocked
    isInBattle := p.isInBattle.getD st.isInBattle }

/-- The change notifications fired through the event emitter of
gameState. -/
inductive StateNotice where
  | xpUpdated (xp : XP)
  | levelUpdated (level : Int)
  | moneyUpdated (money : Int)
deriving DecidableEq, Repr

/-- The xp change notice of updateState: fired when the patch carries
an xp object whose current or required differs from the old value. -/
def noticeXp (st : GameState) (p : StatePatch) : List StateNotice :=
  match p.xp with
  | some x =>
    if x.current ≠ st.xp.current ∨ x.required ≠ st.xp.required
    then [.xpUpdated x] else []
  | none => []

/-- The level change notice of updateState: fired when the patch
carries a truthy (nonzero) level different from the old one. -/
def noticeLevel (st : GameState) (p : StatePatch) : List StateNotice :=
  match p.level with
  | some l => if l ≠ 0 ∧ l ≠ st.level then [.levelUpdated l] else []
  | none => []

/-- The money change notice of updateState: fired when the patch
carries a money value (including zero) different from the old one. -/
def noticeMoney (st : GameState) (p : StatePatch) : List StateNotice :=
  match p.money with
  | some mo => if mo ≠ st.money then [.moneyUpdated mo] else []
  | none => []

/-- Embedding of updateState (gameState lines 117-133): merges the
patch into the snapshot by Object.assign and fires the xp, level and
money change notices against the pre-merge values. -/
def updateState (st : GameState) (p : StatePatch) : GameState × List StateNotice :=
  (applyPatch st p, noticeXp st p ++ noticeLevel st p ++ noticeMoney st p)

/-- Characterization of the money notice of updateState. -/
theorem moneyUpdated_mem_iff (st : GameState) (p : StatePatch) (mo : Int) :
    StateNotice.moneyUpdated mo ∈ (updateState st p).2 ↔
      p.money = some mo ∧ mo ≠ st.money := by
  rcases hx : p.xp with _ | x
  all_goals rcases hl : p.level with _ | l
  all_goals rcases hm : p.money with _ | mo2
  all_goals simp only [updateState, noticeXp, noticeLevel, noticeMoney, hx, hl, hm,
    List.mem_append, List.mem_singleton, List.not_mem_nil]
  all_goals try split_ifs
  all_goals simp_all
  all_goals try aesop

/-- Characterization of the level notice of updateState. -/
theorem levelUpdated_mem_iff (st : GameState) (p : StatePatch) (l : Int) :
    StateNotice.levelUpdated l ∈ (updateState st p).2 ↔
      p.level = some l ∧ l ≠ 0 ∧ l ≠ st.level := by
  rcases hx : p.xp with _ | x
  all_goals rcases hl : p.level with _ | l2
  all_goals rcases hm : p.money with _ | mo
  all_goals simp only [updateState, noticeXp, noticeLevel, noticeMoney, hx, hl, hm,
    List.mem_append, List.mem_singleton, List.not_mem_nil]
  all_goals try split_ifs
  all_goals simp_all
  all_goals try aesop

/-- Characterization of the xp notice of updateState. -/
theorem xpUpdated_mem_iff (st : GameState) (p : StatePatch) (x : XP) :
    StateNotice.xpUpdated x ∈ (updateState st p).2 ↔
      p.xp = some x ∧ (x.current ≠ st.xp.current ∨ x.required ≠ st.xp.required) := by
  rcases hx : p.xp with _ | x2
  all_goals rcases hl : p.level with _ | l
  all_goals rcases hm : p.money with _ | mo
  all_goals simp only [updateState, noticeXp, noticeLevel, noticeMoney, hx, hl, hm,
    List.mem_append, List.mem_singleton, List.not_mem_nil]
  all_goals try split_ifs
  all_goals simp_all
  all_goals try aesop

/-- Claim C9: a money, level or xp notice fired by updateState always
reflects a patched value that actually differs from the old one, and a
redundant patch carrying the same money, level or xp value fires no
notice for that field. -/
theorem updateState_notices_only_on_change (st : GameState) (p : StatePatch) :
    (∀ mo, StateNotice.moneyUpdated mo ∈ (updateState st p).2 →
      p.money = some mo ∧ mo ≠ st.money) ∧
    (∀ l, StateNotice.levelUpdated l ∈ (updateState st p).2 →
      p.level = some l ∧ l ≠ st.level) ∧
    (∀ x, StateNotice.xpUpdated x ∈ (updateState st p).2 →
      p.xp = some x ∧ (x.current ≠ st.xp.current ∨ x.required ≠ st.xp.required)) ∧
    (p.money = some st.money → ∀ mo, StateNotice.moneyUpdated mo ∉ (updateState st p).2) ∧
    (p.level = some st.level → ∀ l, StateNotice.levelUpdated l ∉ (updateState st p).2) ∧
    (p.xp = some st.xp → ∀ x, StateNotice.xpUpdated x ∉ (updateState st p).2) := by
  refine ⟨?_, ?_, ?_, ?_, ?_, ?_⟩
  · intro mo h
    exact (moneyUpdated_mem_iff st p mo).mp h
  · intro l h
    have := (levelUpdated_mem_iff st p l).mp h
    exact ⟨this.1, this.2.2⟩
  · intro x h
    exact (xpUpdated_mem_iff st p x).mp h
  · intro hs mo h
    have := (moneyUpdated_mem_iff st p mo).mp h
    rw [hs] at this
    exact this.2 (Option.some.injEq _ _ ▸ this.1.symm ▸ rfl)
  · intro hs l h
    have := (levelUpdated_mem_iff st p l).mp h
    rw [hs] at this
    exact this.2.2 (Option.some.injEq _ _ ▸ this.1.symm ▸ rfl)
  · intro hs x h
    have := (xpUpdated_mem_iff st p x).mp h
    rw [hs] at this
    obtain ⟨h1, h2⟩ := this
    have hx : st.xp = x := by
      injection h1
    rcases h2 with h2 | h2 <;> exact h2 (by rw [hx])

/-- The redundant patch used to instantiate C9: it repeats the money
(10), level (1) and xp (0 of 2) of initialState. -/
def redundantPatch : StatePatch :=
  { money := some 10, level := some 1, xp := some { current := 0, required := 2 } }

/-- Concrete instantiation of C9: the redundant patch on initialState
fires no notice for any of the three fields. -/
theorem updateState_notices_only_on_change_witness :
    StateNotice.moneyUpdated 10 ∉ (updateState initialState redundantPatch).2 ∧
    StateNotice.levelUpdated 1 ∉ (updateState initialState redundantPatch).2 ∧
    StateNotice.xpUpdated { current := 0, required := 2 } ∉
      (updateState initialState redundantPatch).2 :=
  ⟨(updateState_notices_only_on_change initialState redundantPatch).2.2.2.1 rfl 10,
   (updateState_notices_only_on_change initialState redundantPatch).2.2.2.2.1 rfl 1,
   (updateState_notices_only_on_change initialState redundantPatch).2.2.2.2.2 rfl _⟩

/-- The app-level events fired by ActionButtonPanel.onBuyXPClick. -/
inductive AppEvent where
  | xpUpdated (xp : XP)
  | levelUpdated (level : Int)
deriving DecidableEq, Repr

/-- Embedding of ActionButtonPanel.onBuyXPClick (the XP purchase click
handler): when money covers the fixed cost of 4 it writes the
decremented money directly into the state mirror, fires the xp event,
and either levels up (level incremented in place, xp reset to 0 of
newLevel * 2 + 2, level event fired) or writes the incremented xp in
place.  The handler performs no send call at all (the sendBuyXP import
of the module is unused), so the returned effect list contains only
the locally fired app events and no outbound message. -/
def onBuyXPClick (st : GameState) : GameState × List AppEvent :=
  let xpCost : Int := 4
  if st.money ≥ xpCost then
    let newMoney := st.money - xpCost
    let newXP : XP := { current := st.xp.current + 4, required := st.xp.required }
    let st1 := { st with money := newMoney }
    if newXP.current ≥ newXP.required then
      let newLevel := st1.level + 1
      ({ st1 with level := newLevel, xp := { current := 0, required := newLevel * 2 + 2 } },
       [.xpUpdated newXP, .levelUpdated newLevel])
    else
      ({ st1 with xp := newXP }, [.xpUpdated newXP])
  else
    (st, [])

/-- Claim C6 evaluated at its failing input: a Buy-XP click on the
initial mirror (money 10, level 1, xp 0 of 2) locally rewrites money
to 6, level to 2 and xp to 0 of 6 in the state mirror — a user-input
handler mutating money, xp and level as an optimistic local
prediction, with no server payload involved (the handler sends no
BuyXP intent), contradicting the claim that only server-confirmed
payloads mutate the mirror. -/
theorem onBuyXPClick_mutates_mirror_locally :
    (onBuyXPClick initialState).1.money = 6 ∧
    (onBuyXPClick initialState).1.money ≠ initialState.money ∧
    (onBuyXPClick initialState).1.level = 2 ∧
    (onBuyXPClick initialState).1.level ≠ initialState.level ∧
    (onBuyXPClick initialState).1.xp = { current := 0, required := 6 } ∧
    (onBuyXPClick initialState).1.xp ≠ initialState.xp := by
  decide
